import Mathlib

/-!
Shallow embedding of src/vault_objects.py (jstehn/VaultHandler).

The file models the entry data model (Entry, LoginEntry, CreditCardEntry),
entry construction from external item mappings, URL normalization
(LoginEntry.clean / LoginEntry.clean_url on top of urllib.parse.urlparse),
the merge engine (LoginEntry._merge_entry, CreditCardEntry._merge_entry,
Vault.merge_duplicate_items) and the Proton Pass saver
(ProtonPassSaver.save_data), and proves or refutes the specification
claims about them.

Python dictionaries with known keys are modelled as structures whose
fields are Option-valued (none = key absent); Python exceptions are
modelled with an explicit error type, and in-place mutation of an entry
during a merge is modelled by returning the mutated entry together with
the exception, if any, raised along the way.
-/

namespace VaultHandler

/-! ## Model of urllib.parse.urlparse as used by LoginEntry.clean_url

LoginEntry.clean_url only consumes parsed_url.scheme and
parsed_url.netloc, so only the scheme/netloc extraction of Python's
urlsplit is modelled: the scheme is the text before the first colon when
it is nonempty, starts with an ASCII letter and consists of scheme
characters, and is lowercased; the netloc is present only when the text
after the colon starts with two slashes and extends to the next slash,
question mark or hash.  (The model does not reproduce urlsplit's removal
of embedded tab/CR/LF bytes nor its IPv6-bracket validation error; no
claim exercises such inputs.) -/

/-- Characters Python urllib.parse accepts inside a URL scheme:
ASCII letters, digits, plus (43), minus (45), dot (46). -/
def isSchemeChar (c : Char) : Bool :=
  decide ((65 ≤ c.toNat ∧ c.toNat ≤ 90) ∨ (97 ≤ c.toNat ∧ c.toNat ≤ 122) ∨
    (48 ≤ c.toNat ∧ c.toNat ≤ 57) ∨ c.toNat = 43 ∨ c.toNat = 45 ∨ c.toNat = 46)

/-- ASCII letter test, modelling url[0].isascii() and url[0].isalpha(). -/
def isAsciiAlpha (c : Char) : Bool :=
  decide ((65 ≤ c.toNat ∧ c.toNat ≤ 90) ∨ (97 ≤ c.toNat ∧ c.toNat ≤ 122))

/-- ASCII lowercasing of one character, modelling str.lower on the scheme
(only ASCII characters can reach it, since the scheme characters were
checked first). -/
def lowerChar (c : Char) : Char :=
  if 65 ≤ c.toNat ∧ c.toNat ≤ 90 then Char.ofNat (c.toNat + 32) else c

theorem toNat_lowerChar_of_upper (c : Char) (h1 : 65 ≤ c.toNat) (h2 : c.toNat ≤ 90) :
    (lowerChar c).toNat = c.toNat + 32 := by
  unfold lowerChar
  rw [if_pos ⟨h1, h2⟩]
  have hv : (c.toNat + 32).isValidChar := by
    left
    omega
  show (Char.ofNat (c.toNat + 32)).toNat = c.toNat + 32
  unfold Char.ofNat
  rw [dif_pos hv]
  rfl

theorem lowerChar_of_not_upper (c : Char) (h : ¬ (65 ≤ c.toNat ∧ c.toNat ≤ 90)) :
    lowerChar c = c := by
  unfold lowerChar
  rw [if_neg h]

theorem lowerChar_idem (c : Char) : lowerChar (lowerChar c) = lowerChar c := by
  by_cases h : 65 ≤ c.toNat ∧ c.toNat ≤ 90
  · have ht := toNat_lowerChar_of_upper c h.1 h.2
    exact lowerChar_of_not_upper _ (by omega)
  · simp only [lowerChar_of_not_upper c h]

theorem isSchemeChar_lowerChar (c : Char) (h : isSchemeChar c = true) :
    isSchemeChar (lowerChar c) = true := by
  by_cases hu : 65 ≤ c.toNat ∧ c.toNat ≤ 90
  · have ht := toNat_lowerChar_of_upper c hu.1 hu.2
    simp only [isSchemeChar, decide_eq_true_eq] at h ⊢
    omega
  · rw [lowerChar_of_not_upper c hu]
    exact h

theorem isAsciiAlpha_lowerChar (c : Char) (h : isAsciiAlpha c = true) :
    isAsciiAlpha (lowerChar c) = true := by
  by_cases hu : 65 ≤ c.toNat ∧ c.toNat ≤ 90
  · have ht := toNat_lowerChar_of_upper c hu.1 hu.2
    simp only [isAsciiAlpha, decide_eq_true_eq] at h ⊢
    omega
  · rw [lowerChar_of_not_upper c hu]
    exact h

theorem isSchemeChar_ne_colon (c : Char) (h : isSchemeChar c = true) : c ≠ ':' := by
  intro he
  subst he
  simp [isSchemeChar] at h

/-- Splits a character list at its first colon, like url.find of a colon;
none when no colon occurs. -/
def splitColon : List Char → Option (List Char × List Char)
  | [] => none
  | c :: cs =>
    if c = ':' then some ([], cs)
    else
      match splitColon cs with
      | none => none
      | some (a, b) => some (c :: a, b)

theorem splitColon_append_colon (l r : List Char) (h : ∀ c ∈ l, c ≠ ':') :
    splitColon (l ++ ':' :: r) = some (l, r) := by
  induction l with
  | nil => simp [splitColon]
  | cons c cs ih =>
    have hc : c ≠ ':' := h c (List.mem_cons_self c cs)
    have ih2 := ih (fun x hx => h x (List.mem_cons_of_mem c hx))
    simp [splitColon, if_neg hc, ih2]

/-- Scheme extraction of urlsplit: the text before the first colon when
nonempty, ASCII-letter-initial and made of scheme characters, lowercased;
paired with the remainder after the colon. -/
def parseScheme (u : List Char) : Option (List Char × List Char) :=
  match splitColon u with
  | none => none
  | some ([], _) => none
  | some (c :: cs, after) =>
    if isAsciiAlpha c && (c :: cs).all isSchemeChar
    then some ((c :: cs).map lowerChar, after)
    else none

/-- Characters ending the netloc in urlsplit. -/
def isNetlocStop (c : Char) : Bool := c == '/' || c == '?' || c == '#'

/-- Netloc extraction of urlsplit on the text following the scheme colon:
present only after a double slash, up to the next slash, question mark or
hash; empty otherwise. -/
def netlocOf (r : List Char) : List Char :=
  match r with
  | c1 :: c2 :: rest =>
    if c1 = '/' ∧ c2 = '/' then rest.takeWhile (fun c => !isNetlocStop c) else []
  | _ => []

theorem netlocOf_all (r : List Char) : ∀ c ∈ netlocOf r, (!isNetlocStop c) = true := by
  cases r with
  | nil => simp [netlocOf]
  | cons c1 tl =>
    cases tl with
    | nil => simp [netlocOf]
    | cons c2 rest =>
      by_cases h : c1 = '/' ∧ c2 = '/'
      · simp only [netlocOf, if_pos h]
        intro c hc
        have hp := List.mem_takeWhile_imp hc
        exact hp
      · simp [netlocOf, if_neg h]

theorem takeWhile_append_single {α : Type} (p : α → Bool) (l : List α)
    (h : ∀ c ∈ l, p c = true) (x : α) (hx : p x = false) :
    (l ++ [x]).takeWhile p = l := by
  induction l with
  | nil => simp [List.takeWhile_cons, hx]
  | cons a as ih =>
    have ha : p a = true := h a (List.mem_cons_self a as)
    simp only [List.cons_append, List.takeWhile_cons, ha, if_true]
    rw [ih (fun c hc => h c (List.mem_cons_of_mem a hc))]

theorem netlocOf_canonical (r : List Char) :
    netlocOf ('/' :: '/' :: (netlocOf r ++ [ '/' ])) = netlocOf r := by
  show (if ('/' : Char) = '/' ∧ ('/' : Char) = '/'
    then (netlocOf r ++ [ '/' ]).takeWhile (fun c => !isNetlocStop c)
    else []) = netlocOf r
  rw [if_pos ⟨rfl, rfl⟩]
  exact takeWhile_append_single _ _ (netlocOf_all r) '/' (by decide)

theorem map_eq_self_of_fix {α : Type} (f : α → α) (l : List α)
    (h : ∀ x ∈ l, f x = x) : l.map f = l := by
  induction l with
  | nil => rfl
  | cons a as ih =>
    simp only [List.map_cons, h a (List.mem_cons_self a as),
      ih (fun x hx => h x (List.mem_cons_of_mem a hx))]

theorem parseScheme_props (u : List Char) (sch rest : List Char)
    (h : parseScheme u = some (sch, rest)) :
    sch.all isSchemeChar = true ∧
    (∃ c cs, sch = c :: cs ∧ isAsciiAlpha c = true) ∧
    sch.map lowerChar = sch := by
  unfold parseScheme at h
  split at h
  · exact absurd h (by simp)
  · exact absurd h (by simp)
  · rename_i c cs after heq
    split at h
    · rename_i hcond
      injection h with h1
      injection h1 with hsch hrest
      obtain ⟨halpha, hall⟩ := Bool.and_eq_true_iff.mp hcond
      subst hsch
      refine ⟨?_, ⟨lowerChar c, cs.map lowerChar, by simp, isAsciiAlpha_lowerChar c halpha⟩, ?_⟩
      · rw [List.all_eq_true] at hall ⊢
        intro x hx
        obtain ⟨y, hy, hyx⟩ := List.mem_map.mp hx
        subst hyx
        exact isSchemeChar_lowerChar y (hall y hy)
      · apply map_eq_self_of_fix
        intro x hx
        obtain ⟨y, _, hyx⟩ := List.mem_map.mp hx
        subst hyx
        exact lowerChar_idem y
    · exact absurd h (by simp)

theorem parseScheme_canonical (c : Char) (cs rest2 : List Char)
    (hall : (c :: cs).all isSchemeChar = true)
    (halpha : isAsciiAlpha c = true)
    (hfix : (c :: cs).map lowerChar = c :: cs) :
    parseScheme ((c :: cs) ++ ':' :: rest2) = some (c :: cs, rest2) := by
  have hnc : ∀ x ∈ c :: cs, x ≠ ':' := by
    intro x hx
    exact isSchemeChar_ne_colon x ((List.all_eq_true.mp hall) x hx)
  unfold parseScheme
  rw [splitColon_append_colon _ _ hnc]
  show (if (isAsciiAlpha c && (c :: cs).all isSchemeChar) = true
    then some ((c :: cs).map lowerChar, rest2) else none) = some (c :: cs, rest2)
  rw [if_pos (Bool.and_eq_true_iff.mpr ⟨halpha, hall⟩)]
  rw [hfix]

/-- LoginEntry.clean_url: reduce a URL with a scheme to scheme://netloc/,
leave anything without a scheme unchanged. -/
def clean_url (url : String) : String :=
  match parseScheme url.data with
  | some (sch, rest) => String.mk (sch ++ ':' :: '/' :: '/' :: (netlocOf rest ++ [ '/' ]))
  | none => url

theorem clean_url_idem (u : String) : clean_url (clean_url u) = clean_url u := by
  cases h : parseScheme u.data with
  | none => simp [clean_url, h]
  | some p =>
    obtain ⟨sch, rest⟩ := p
    obtain ⟨hall, ⟨c, cs, hcons, halpha⟩, hfix⟩ := parseScheme_props _ _ _ h
    subst hcons
    have hout : clean_url u =
        String.mk ((c :: cs) ++ ':' :: '/' :: '/' :: (netlocOf rest ++ [ '/' ])) := by
      simp [clean_url, h]
    rw [hout]
    have hdata : (String.mk ((c :: cs) ++ ':' :: '/' :: '/' :: (netlocOf rest ++ [ '/' ]))).data
        = (c :: cs) ++ ':' :: ('/' :: '/' :: (netlocOf rest ++ [ '/' ])) := rfl
    unfold clean_url
    rw [hdata, parseScheme_canonical c cs _ hall halpha hfix]
    show String.mk ((c :: cs) ++ ':' :: '/' :: '/'
        :: (netlocOf ('/' :: '/' :: (netlocOf rest ++ [ '/' ])) ++ [ '/' ]))
      = String.mk ((c :: cs) ++ ':' :: '/' :: '/' :: (netlocOf rest ++ [ '/' ]))
    rw [netlocOf_canonical rest]

/-! ## Entry.unique_list -/

/-- Helper for unique_list carrying the Python seen set (as a list). -/
def uniqueListAux {α : Type} [DecidableEq α] (seen : List α) : List α → List α
  | [] => []
  | x :: xs => if x ∈ seen then uniqueListAux seen xs else x :: uniqueListAux (x :: seen) xs

/-- Entry.unique_list: first-occurrence deduplication preserving order
(the Python seen-set list comprehension). -/
def unique_list {α : Type} [DecidableEq α] (l : List α) : List α := uniqueListAux [] l

theorem mem_uniqueListAux {α : Type} [DecidableEq α] (l : List α) :
    ∀ (seen : List α) (x : α), x ∈ uniqueListAux seen l ↔ x ∈ l ∧ x ∉ seen := by
  induction l with
  | nil => intro seen x; simp [uniqueListAux]
  | cons a as ih =>
    intro seen x
    by_cases ha : a ∈ seen
    · rw [uniqueListAux, if_pos ha, ih]
      constructor
      · rintro ⟨h1, h2⟩
        exact ⟨List.mem_cons_of_mem a h1, h2⟩
      · rintro ⟨h1, h2⟩
        rcases List.mem_cons.mp h1 with heq | hmem
        · subst heq; exact absurd ha h2
        · exact ⟨hmem, h2⟩
    · rw [uniqueListAux, if_neg ha, List.mem_cons, ih]
      constructor
      · rintro (heq | ⟨h1, h2⟩)
        · subst heq; exact ⟨List.mem_cons_self x as, fun hx => ha hx⟩
        · exact ⟨List.mem_cons_of_mem a h1, fun hx => h2 (List.mem_cons_of_mem a hx)⟩
      · rintro ⟨h1, h2⟩
        by_cases hxa : x = a
        · exact Or.inl hxa
        · rcases List.mem_cons.mp h1 with heq | hmem
          · exact absurd heq hxa
          · refine Or.inr ⟨hmem, fun hx => ?_⟩
            rcases List.mem_cons.mp hx with heq | hmem2
            · exact hxa heq
            · exact h2 hmem2

theorem nodup_uniqueListAux {α : Type} [DecidableEq α] (l : List α) :
    ∀ seen : List α, (uniqueListAux seen l).Nodup := by
  induction l with
  | nil => intro seen; simp [uniqueListAux]
  | cons a as ih =>
    intro seen
    by_cases ha : a ∈ seen
    · rw [uniqueListAux, if_pos ha]; exact ih seen
    · rw [uniqueListAux, if_neg ha]
      refine List.Nodup.cons ?_ (ih (a :: seen))
      intro hmem
      exact ((mem_uniqueListAux as (a :: seen) a).mp hmem).2 (List.mem_cons_self a seen)

theorem uniqueListAux_eq_self {α : Type} [DecidableEq α] (l : List α) :
    ∀ seen : List α, l.Nodup → (∀ x ∈ l, x ∉ seen) → uniqueListAux seen l = l := by
  induction l with
  | nil => intro seen _ _; rfl
  | cons a as ih =>
    intro seen hnd hout
    have ha : a ∉ seen := hout a (List.mem_cons_self a as)
    rw [uniqueListAux, if_neg ha]
    congr 1
    apply ih
    · exact hnd.of_cons
    · intro x hx
      intro hmem
      rcases List.mem_cons.mp hmem with heq | hmem2
      · subst heq
        exact (List.nodup_cons.mp hnd).1 hx
      · exact hout x (List.mem_cons_of_mem a hx) hmem2

theorem mem_unique_list {α : Type} [DecidableEq α] (l : List α) (x : α) :
    x ∈ unique_list l ↔ x ∈ l := by
  rw [unique_list, mem_uniqueListAux]
  simp

theorem unique_list_nodup {α : Type} [DecidableEq α] (l : List α) :
    (unique_list l).Nodup := nodup_uniqueListAux l []

theorem unique_list_eq_self {α : Type} [DecidableEq α] (l : List α) (h : l.Nodup) :
    unique_list l = l := uniqueListAux_eq_self l [] h (by simp)

theorem unique_list_ne_nil {α : Type} [DecidableEq α] (x : α) (xs : List α) :
    unique_list (x :: xs) ≠ [] := by
  rw [unique_list, uniqueListAux, if_neg (List.not_mem_nil x)]
  simp

/-! ## Data model

External item mappings are modelled as structures with Option-valued
fields: none stands for an absent dictionary key.  Timestamps are
integers, uuid4 and datetime.now are modelled by an Env value supplied at
construction. -/

/-- One element of content.passkeys (or of a passkeys list at the data
root): the keyId the merge deduplicates on, plus the rest of the passkey
dictionary kept opaque. -/
structure Passkey where
  keyId? : Option String := none
  payload : String := ""
deriving DecidableEq

/-- Keys read from data.content by LoginEntry and CreditCardEntry. -/
structure Content where
  username? : Option String := none
  password? : Option String := none
  totpUri? : Option String := none
  urls? : Option (List String) := none
  passkeys? : Option (List Passkey) := none
  cardholderName? : Option String := none
  cardType? : Option String := none
  number? : Option String := none
  expirationDate? : Option String := none
  pin? : Option String := none
  code? : Option String := none
deriving DecidableEq

/-- Keys read from data.metadata. -/
structure Metadata where
  name? : Option String := none
  note? : Option String := none
  itemUuid? : Option String := none
deriving DecidableEq

/-- The data dictionary of an item.  passkeysRoot? models a passkeys key
at the root of data (not under content): that is where
LoginEntry._merge_entry reads passkeys from. -/
structure ItemData where
  type? : Option String := none
  content? : Option Content := none
  metadata? : Option Metadata := none
  extraFields? : Option (List String) := none
  passkeysRoot? : Option (List Passkey) := none
deriving DecidableEq

/-- An external item mapping, with the root keys Entry reads. -/
structure Item where
  id? : Option String := none
  name? : Option String := none
  data? : Option ItemData := none
  state? : Option Int := none
  vault? : Option String := none
  create_time? : Option Int := none
  modify_time? : Option Int := none
  favorite? : Option Bool := none
deriving DecidableEq

/-- Nondeterministic inputs of one construction: the uuid4 value used
when id is absent or falsy, and datetime.now. -/
structure Env where
  freshId : String := "uuid4"
  now : Int := 0
deriving DecidableEq

/-- Python exceptions reachable in the modelled code. -/
inductive VaultError where
  /-- KeyError, carrying the missing key. -/
  | keyError : String → VaultError
  /-- TypeError from datetime.datetime called on a bare timestamp. -/
  | typeError : String → VaultError
  /-- AttributeError, carrying the missing attribute name. -/
  | attributeError : String → VaultError
  /-- The ValueError raised by the key-mismatch check in _merge_entry. -/
  | mergeMismatch : VaultError
  /-- The TypeError raised by Entry.merge on operands of different classes. -/
  | mergeTypeError : VaultError
  /-- The ValueError save_data wraps any exception into. -/
  | valueError : String → VaultError
deriving DecidableEq

/-- A constructed LoginEntry.  pinned? is none because __init__ never
assigns pinned; reading it raises AttributeError. -/
structure LoginEntry where
  item_dict : Item
  item_id : String
  data : ItemData
  state : Int
  vault? : Option String
  create_time : Int
  modify_time : Int
  favorite : Bool
  type : String
  username? : Option String
  password? : Option String
  name? : Option String
  note? : Option String
  totp : String
  urls : List String
  passkeys : List Passkey
  pinned? : Option Bool
deriving DecidableEq

/-- A constructed CreditCardEntry. -/
structure CreditCardEntry where
  item_dict : Item
  item_id : String
  data : ItemData
  state : Int
  vault? : Option String
  create_time : Int
  modify_time : Int
  favorite : Bool
  type : String
  cardholder_name? : Option String
  card_type? : Option String
  number? : Option String
  exp_date? : Option String
  pin? : Option String
  code? : Option String
  name? : Option String
  note? : Option String
  uuid? : Option String
deriving DecidableEq

/-- Fields Entry.__init__ computes before subclass initialization. -/
structure EntryBase where
  item_id : String
  name? : Option String
  data : ItemData
  state : Int
  vault? : Option String
  create_time : Int
  modify_time : Int
  favorite : Bool
  type : String
deriving DecidableEq

/-- Timestamp handling of Entry.__init__: an absent or falsy (zero)
create_time/modify_time key defaults to datetime.now; a truthy one is
passed to datetime.datetime(value), which raises TypeError on a bare
timestamp. -/
def parseTime (env : Env) (t? : Option Int) : Except VaultError Int :=
  match t? with
  | some t => if t ≠ 0 then .error (.typeError "datetime.datetime") else .ok env.now
  | none => .ok env.now

/-- Entry.__init__: defaults for absent optional keys, a fresh uuid for an
absent or falsy id, and a KeyError when data has no type key. -/
def entryInit (env : Env) (item : Item) : Except VaultError EntryBase := do
  let item_id : String :=
    match item.id? with
    | some s => if s = "" then env.freshId else s
    | none => env.freshId
  let data := item.data?.getD {}
  let create_time ← parseTime env item.create_time?
  let modify_time ← parseTime env item.modify_time?
  match data.type? with
  | none => .error (.keyError "type")
  | some ty =>
    .ok {
      item_id := item_id
      name? := item.name?
      data := data
      state := item.state?.getD 1
      vault? := item.vault?
      create_time := create_time
      modify_time := modify_time
      favorite := item.favorite?.getD false
      type := ty
    }

/-- LoginEntry.__init__ on top of Entry.__init__: fields from
data.content and data.metadata, with empty-string/empty-list defaults;
name is overwritten by metadata.name. -/
def loginInit (env : Env) (item : Item) : Except VaultError LoginEntry := do
  let base ← entryInit env item
  let content := base.data.content?.getD {}
  let metadata := base.data.metadata?.getD {}
  .ok {
    item_dict := item
    item_id := base.item_id
    data := base.data
    state := base.state
    vault? := base.vault?
    create_time := base.create_time
    modify_time := base.modify_time
    favorite := base.favorite
    type := base.type
    username? := content.username?
    password? := content.password?
    name? := metadata.name?
    note? := metadata.note?
    totp := content.totpUri?.getD ""
    urls := content.urls?.getD []
    passkeys := content.passkeys?.getD []
    pinned? := none
  }

/-- CreditCardEntry.__init__ on top of Entry.__init__. -/
def cardInit (env : Env) (item : Item) : Except VaultError CreditCardEntry := do
  let base ← entryInit env item
  let content := base.data.content?.getD {}
  let metadata := base.data.metadata?.getD {}
  .ok {
    item_dict := item
    item_id := base.item_id
    data := base.data
    state := base.state
    vault? := base.vault?
    create_time := base.create_time
    modify_time := base.modify_time
    favorite := base.favorite
    type := base.type
    cardholder_name? := content.cardholderName?
    card_type? := content.cardType?
    number? := content.number?
    exp_date? := content.expirationDate?
    pin? := content.pin?
    code? := content.code?
    name? := metadata.name?
    note? := metadata.note?
    uuid? := metadata.itemUuid?
  }

/-- The tuple LoginEntry.__hash__ hashes and __eq__ compares, and the
tuple CreditCardEntry.__hash__ hashes, as one sum so that the grouping
key (type(entry), hash(entry)) of merge_duplicate_items is a single
value.  Hashing is modelled by the tuple itself. -/
inductive EntryKey where
  | loginKey : String → Option String → Option String → Option String → EntryKey
  | cardKey : Option String → Option String → EntryKey
deriving DecidableEq

def loginHashKey (e : LoginEntry) : EntryKey :=
  .loginKey e.type e.name? e.username? e.password?

def cardHashKey (e : CreditCardEntry) : EntryKey :=
  .cardKey e.number? e.cardholder_name?

/-- A vault item: one of the two constructible Entry subclasses. -/
inductive Entry where
  | login : LoginEntry → Entry
  | creditCard : CreditCardEntry → Entry
deriving DecidableEq

def entryKey : Entry → EntryKey
  | .login e => loginHashKey e
  | .creditCard e => cardHashKey e

/-! ## Normalization -/

/-- LoginEntry.clean with its default clean_name=False (the only way
Vault.clean_items calls it): when urls is nonempty, map clean_url over it
and deduplicate with unique_list; the name is untouched. -/
def loginClean (e : LoginEntry) : LoginEntry :=
  if e.urls = [] then e else { e with urls := unique_list (e.urls.map clean_url) }

/-- Vault.clean_items dispatch: CreditCardEntry.clean is pass. -/
def cleanEntry : Entry → Entry
  | .login e => .login (loginClean e)
  | .creditCard e => .creditCard e

def clean_items (items : List Entry) : List Entry := items.map cleanEntry

/-! ## Merge engine

In-place mutation is modelled by returning the mutated receiver together
with the exception raised during the merge, if any. -/

/-- Seen-set deduplication by keyId used on passkeys in _merge_entry. -/
def dedupByKeyAux (seen : List (Option String)) : List Passkey → List Passkey
  | [] => []
  | p :: ps =>
    if p.keyId? ∈ seen then dedupByKeyAux seen ps
    else p :: dedupByKeyAux (p.keyId? :: seen) ps

def dedupByKeyId (l : List Passkey) : List Passkey := dedupByKeyAux [] l

/-- LoginEntry._merge_entry: raises ValueError when the operands compare
unequal (hash-key mismatch); otherwise assigns urls (first-seen union),
passkeys (read from the data root, not from content, deduplicated by
keyId), concatenated extraFields — and then reads newer.pinned, an
attribute no entry has, so an AttributeError is raised before pinned,
modify_time and item_id can be assigned. -/
def loginMergeState (self other : LoginEntry) : LoginEntry × Option VaultError :=
  if loginHashKey self ≠ loginHashKey other then (self, some .mergeMismatch)
  else
    let newer := if other.modify_time < self.modify_time then self else other
    let pk := (self.data.passkeysRoot?.getD []) ++ (other.data.passkeysRoot?.getD [])
    let extra := (self.data.extraFields?.getD []) ++ (other.data.extraFields?.getD [])
    let self1 := { self with
      urls := unique_list (self.urls ++ other.urls),
      passkeys := dedupByKeyId pk,
      data := { self.data with extraFields? := some extra } }
    match newer.pinned? with
    | none => (self1, some (.attributeError "pinned"))
    | some p =>
      let done := { self1 with
        pinned? := some p,
        modify_time := newer.modify_time,
        item_id := newer.item_id }
      (done, none)

/-- CreditCardEntry._merge_entry: ValueError on hash-key mismatch,
otherwise the receiver becomes a deep copy of the more recently modified
operand in full (ties go to the argument, matching the stable ascending
sort). -/
def cardMergeState (self other : CreditCardEntry) : CreditCardEntry × Option VaultError :=
  if cardHashKey self ≠ cardHashKey other then (self, some .mergeMismatch)
  else
    (if other.modify_time < self.modify_time then self else other, none)

/-- Entry.merge: TypeError across classes, else dispatch to _merge_entry. -/
def mergeState : Entry → Entry → Entry × Option VaultError
  | .login a, .login b =>
    let r := loginMergeState a b
    (.login r.1, r.2)
  | .creditCard a, .creditCard b =>
    let r := cardMergeState a b
    (.creditCard r.1, r.2)
  | a, _ => (a, some .mergeTypeError)

/-- The fold of merge_duplicate_items over one duplicate group: merge
each later entry into the first, stopping at the first exception. -/
def mergeFold (acc : Entry) : List Entry → Entry × Option VaultError
  | [] => (acc, none)
  | e :: rest =>
    let r := mergeState acc e
    match r.2 with
    | none => mergeFold r.1 rest
    | some err => (r.1, some err)

/-- The entries sharing one grouping key, in input order (the defaultdict
group of merge_duplicate_items). -/
def groupOf (items : List Entry) (k : EntryKey) : List Entry :=
  items.filter (fun e => entryKey e == k)

/-- merge_duplicate_items over the groups in first-seen key order: each
group collapses to its merged first entry; an exception propagates and
aborts the whole pass. -/
def mergeGroups (items : List Entry) : List EntryKey → Except VaultError (List Entry)
  | [] => .ok []
  | k :: ks =>
    match groupOf items k with
    | [] => mergeGroups items ks
    | e :: rest =>
      let r := mergeFold e rest
      match r.2 with
      | none =>
        match mergeGroups items ks with
        | .ok tl => .ok (r.1 :: tl)
        | .error err => .error err
      | some err => .error err

/-- Vault.merge_duplicate_items: group by (class, hash) in first-seen
order, merge each group. -/
def merge_duplicate_items (items : List Entry) : Except VaultError (List Entry) :=
  mergeGroups items (unique_list (items.map entryKey))

/-! ## Vault construction and the Proton Pass saver -/

/-- Vault._create_entry: LoginEntry for data.type login, CreditCardEntry
for creditCard, None otherwise. -/
def create_entry (env : Env) (item : Item) : Except VaultError (Option Entry) :=
  match (item.data?.getD {}).type? with
  | some ty =>
    if ty = "login" then (loginInit env item).map (fun e => some (.login e))
    else if ty = "creditCard" then (cardInit env item).map (fun e => some (.creditCard e))
    else .ok none
  | none => .ok none

/-- The item loop of Vault.__init__: construct entries in order, keeping
only the non-None ones; a construction exception propagates. -/
def vault_items : List (Env × Item) → Except VaultError (List Entry)
  | [] => .ok []
  | (env, item) :: rest => do
    let e? ← create_entry env item
    let tl ← vault_items rest
    match e? with
    | some e => .ok (e :: tl)
    | none => .ok tl

structure Vault where
  id : String
  name? : Option String
  items : List Entry
deriving DecidableEq

/-- The envelope state ProtonPassLoader.load_data leaves on the handler. -/
structure HandlerState where
  encrypted : Bool
  user_id : String
  version : Int
  vaults : List Vault
deriving DecidableEq

/-- The document shape save_data assembles before zipping. -/
structure SaveDoc where
  encrypted : Bool
  userId : String
  version : Int
  vaultsOut : List (String × Vault)
deriving DecidableEq

/-- The vault loop of ProtonPassSaver.save_data: the code evaluates
data_to_save of vaults at vault.id as a bare subscript expression on the
vaults dictionary it just created empty and never assigns into, so the
first vault raises KeyError; nothing is ever added to the mapping. -/
def saveVaultsLoop (built : List (String × Vault)) :
    List Vault → Except VaultError (List (String × Vault))
  | [] => .ok built
  | v :: vs =>
    match built.find? (fun p => p.1 == v.id) with
    | some _ => saveVaultsLoop built vs
    | none => .error (.keyError v.id)

/-- ProtonPassSaver.save_data: envelope fields copied from the handler,
then the vault loop; any exception is wrapped in ValueError. -/
def save_data (h : HandlerState) : Except VaultError SaveDoc :=
  match saveVaultsLoop [] h.vaults with
  | .ok built =>
    .ok { encrypted := h.encrypted, userId := h.user_id,
          version := h.version, vaultsOut := built }
  | .error _ => .error (.valueError "Error saving data")

/-! ## Helper lemmas for the claims -/

theorem cleanUrls_idem (l : List String) :
    unique_list ((unique_list (l.map clean_url)).map clean_url)
      = unique_list (l.map clean_url) := by
  have hfix : (unique_list (l.map clean_url)).map clean_url
      = unique_list (l.map clean_url) := by
    apply map_eq_self_of_fix
    intro x hx
    obtain ⟨y, _, hyx⟩ := List.mem_map.mp ((mem_unique_list _ _).mp hx)
    subst hyx
    exact clean_url_idem y
  rw [hfix]
  exact unique_list_eq_self _ (unique_list_nodup _)

/-- Fallback record for extracting entries out of Except values at
concrete inputs; never actually reached. -/
def dummyLogin : LoginEntry :=
  { item_dict := {}, item_id := "", data := {}, state := 1, vault? := none,
    create_time := 0, modify_time := 0, favorite := false, type := "login",
    username? := none, password? := none, name? := none, note? := none,
    totp := "", urls := [], passkeys := [], pinned? := none }

/-- Fallback CreditCardEntry, never actually reached. -/
def dummyCard : CreditCardEntry :=
  { item_dict := {}, item_id := "", data := {}, state := 1, vault? := none,
    create_time := 0, modify_time := 0, favorite := false, type := "creditCard",
    cardholder_name? := none, card_type? := none, number? := none,
    exp_date? := none, pin? := none, code? := none,
    name? := none, note? := none, uuid? := none }

/-! ## C7 -/

/-- C7: normalization is idempotent.  For every LoginRecord, applying
LoginEntry.clean twice (reduce each URL with a scheme to scheme://host/,
leave scheme-less strings unchanged, then deduplicate preserving
first-seen order) equals applying it once. -/
theorem c7_normalize_idempotent (e : LoginEntry) :
    loginClean (loginClean e) = loginClean e := by
  by_cases h : e.urls = []
  · have h1 : loginClean e = e := by
      unfold loginClean
      rw [if_pos h]
    rw [h1]
    exact h1
  · have h1 : loginClean e = { e with urls := unique_list (e.urls.map clean_url) } := by
      unfold loginClean
      rw [if_neg h]
    rw [h1]
    have h2 : ({ e with urls := unique_list (e.urls.map clean_url) } : LoginEntry).urls ≠ [] := by
      show unique_list (e.urls.map clean_url) ≠ []
      obtain ⟨x, xs, hx⟩ := List.exists_cons_of_ne_nil h
      rw [hx, List.map_cons]
      exact unique_list_ne_nil _ _
    unfold loginClean
    rw [if_neg h2]
    show ({ e with urls := unique_list ((unique_list (e.urls.map clean_url)).map clean_url) } : LoginEntry)
      = { e with urls := unique_list (e.urls.map clean_url) }
    rw [cleanUrls_idem]

/-! ## C3 -/

/-- C3 (amended): _merge_entry never reassigns the scalar fields — the
receiver (the first entry of the duplicate group, not reordered by
modifiedAt) keeps its username, password and totpUri whatever the two
operands' modify times and whether or not its values are empty. -/
theorem c3_receiver_scalars_unchanged (a b : LoginEntry) :
    (loginMergeState a b).1.username? = a.username? ∧
    (loginMergeState a b).1.password? = a.password? ∧
    (loginMergeState a b).1.totp = a.totp := by
  unfold loginMergeState
  split
  · exact ⟨rfl, rfl, rfl⟩
  · by_cases hmt : b.modify_time < a.modify_time
    · cases hp : a.pinned? <;> simp [hmt, hp]
    · cases hp : b.pinned? <;> simp [hmt, hp]

def c3EnvA : Env := { freshId := "c3a", now := 1 }

def c3EnvB : Env := { freshId := "c3b", now := 2 }

def c3Meta : Metadata := { name? := some "Example" }

def c3ContentA : Content :=
  { username? := some "bob", password? := some "pw1", totpUri? := none }

def c3ContentB : Content :=
  { username? := some "bob", password? := some "pw1", totpUri? := some "otpauth://x" }

def c3ItemA : Item :=
  { data? := some { type? := some "login", content? := some c3ContentA, metadata? := some c3Meta } }

def c3ItemB : Item :=
  { data? := some { type? := some "login", content? := some c3ContentB, metadata? := some c3Meta } }

def c3A : LoginEntry := ((loginInit c3EnvA c3ItemA).toOption).getD dummyLogin

def c3B : LoginEntry := ((loginInit c3EnvB c3ItemB).toOption).getD dummyLogin

/-- C3 counterexample: two same-key login records, the receiver older
with an empty totpUri, the other more recent with a non-empty one.  The
claim predicts the merged totpUri is the newer non-empty value; the code
keeps the receiver's empty value and the merge does not even complete. -/
theorem c3_counterexample :
    loginInit c3EnvA c3ItemA = .ok c3A ∧
    loginInit c3EnvB c3ItemB = .ok c3B ∧
    loginHashKey c3A = loginHashKey c3B ∧
    c3A.modify_time < c3B.modify_time ∧
    c3A.totp = "" ∧
    c3B.totp = "otpauth://x" ∧
    ¬ ((loginMergeState c3A c3B).1.totp = "otpauth://x") ∧
    ¬ ((loginMergeState c3A c3B).2 = none) := by
  refine ⟨rfl, rfl, rfl, by decide, rfl, rfl, by decide, by decide⟩

/-! ## C8 -/

/-- C8: merging two same-key CreditCardRecords succeeds and replaces the
whole field set with that of the more recently modified operand. -/
theorem c8_card_merge_newer_wins (x y : CreditCardEntry)
    (hk : cardHashKey x = cardHashKey y) :
    (x.modify_time < y.modify_time → cardMergeState x y = (y, none)) ∧
    (y.modify_time < x.modify_time → cardMergeState x y = (x, none)) := by
  constructor
  · intro hlt
    unfold cardMergeState
    rw [if_neg (fun hcon => hcon hk)]
    rw [if_neg (by omega : ¬ y.modify_time < x.modify_time)]
  · intro hlt
    unfold cardMergeState
    rw [if_neg (fun hcon => hcon hk)]
    rw [if_pos hlt]

def c8EnvA : Env := { freshId := "c8a", now := 1 }

def c8EnvB : Env := { freshId := "c8b", now := 2 }

def c8ContentA : Content :=
  { cardholderName? := some "Jane Doe", number? := some "4111111111111111",
    expirationDate? := some "2025-01" }

def c8ContentB : Content :=
  { cardholderName? := some "Jane Doe", number? := some "4111111111111111",
    expirationDate? := some "2030-06" }

def c8ItemA : Item :=
  { data? := some { type? := some "creditCard", content? := some c8ContentA } }

def c8ItemB : Item :=
  { data? := some { type? := some "creditCard", content? := some c8ContentB } }

def c8A : CreditCardEntry := ((cardInit c8EnvA c8ItemA).toOption).getD dummyCard

def c8B : CreditCardEntry := ((cardInit c8EnvB c8ItemB).toOption).getD dummyCard

/-- C8 witness: two same-card records with different expiry; the merge
returns the later-modified operand whole, so its expiry wins. -/
theorem c8_card_merge_newer_wins_witness : cardMergeState c8A c8B = (c8B, none) :=
  (c8_card_merge_newer_wins c8A c8B rfl).1 (by decide)

/-! ## C10 -/

theorem mem_groupOf (items : List Entry) (k : EntryKey) (e : Entry)
    (h : e ∈ groupOf items k) : entryKey e = k := by
  have h2 := (List.mem_filter.mp h).2
  exact eq_of_beq h2

theorem loginMergeState_no_mismatch (x y : LoginEntry)
    (hk : loginHashKey x = loginHashKey y) :
    (loginMergeState x y).2 ≠ some .mergeMismatch ∧
    loginHashKey (loginMergeState x y).1 = loginHashKey x := by
  unfold loginMergeState
  rw [if_neg (fun hc => hc hk)]
  by_cases hmt : y.modify_time < x.modify_time
  · cases hp : x.pinned? <;> simp [hmt, hp, loginHashKey]
  · cases hp : y.pinned? <;> simp [hmt, hp, loginHashKey]

theorem cardMergeState_no_mismatch (x y : CreditCardEntry)
    (hk : cardHashKey x = cardHashKey y) :
    (cardMergeState x y).2 ≠ some .mergeMismatch ∧
    cardHashKey (cardMergeState x y).1 = cardHashKey x := by
  unfold cardMergeState
  rw [if_neg (fun hc => hc hk)]
  by_cases hmt : y.modify_time < x.modify_time
  · simp [hmt]
  · simp [hmt, hk]

theorem mergeState_no_mismatch (a b : Entry) (hk : entryKey a = entryKey b) :
    (mergeState a b).2 ≠ some .mergeMismatch ∧
    entryKey (mergeState a b).1 = entryKey a := by
  cases a with
  | login x =>
    cases b with
    | login y => exact loginMergeState_no_mismatch x y hk
    | creditCard y => exact EntryKey.noConfusion hk
  | creditCard x =>
    cases b with
    | login y => exact EntryKey.noConfusion hk
    | creditCard y => exact cardMergeState_no_mismatch x y hk

theorem mergeFold_no_mismatch (rest : List Entry) :
    ∀ acc : Entry, (∀ e ∈ rest, entryKey e = entryKey acc) →
      (mergeFold acc rest).2 ≠ some .mergeMismatch ∧
      entryKey (mergeFold acc rest).1 = entryKey acc := by
  induction rest with
  | nil =>
    intro acc _
    exact ⟨by simp [mergeFold], rfl⟩
  | cons e es ih =>
    intro acc h
    have hke : entryKey acc = entryKey e := (h e (List.mem_cons_self e es)).symm
    have hm := mergeState_no_mismatch acc e hke
    cases hr : (mergeState acc e).2 with
    | none =>
      have hred : mergeFold acc (e :: es) = mergeFold (mergeState acc e).1 es := by
        simp only [mergeFold, hr]
      have hrec := ih (mergeState acc e).1 (fun x hx => by
        rw [hm.2]
        exact h x (List.mem_cons_of_mem e hx))
      rw [hred]
      exact ⟨hrec.1, by rw [hrec.2, hm.2]⟩
    | some err =>
      have hred : mergeFold acc (e :: es) = ((mergeState acc e).1, some err) := by
        simp only [mergeFold, hr]
      rw [hred]
      refine ⟨?_, hm.2⟩
      intro hcon
      apply hm.1
      rw [hr]
      exact hcon

theorem mergeGroups_no_mismatch (items : List Entry) (ks : List EntryKey) :
    mergeGroups items ks ≠ .error .mergeMismatch := by
  induction ks with
  | nil => simp [mergeGroups]
  | cons k ks ih =>
    cases hg : groupOf items k with
    | nil => simpa [mergeGroups, hg] using ih
    | cons e rest =>
      have hke : entryKey e = k :=
        mem_groupOf items k e (by rw [hg]; exact List.mem_cons_self e rest)
      have hall : ∀ x ∈ rest, entryKey x = entryKey e := by
        intro x hx
        have hxg : x ∈ groupOf items k := by
          rw [hg]
          exact List.mem_cons_of_mem e hx
        rw [mem_groupOf items k x hxg, hke]
      have hf := mergeFold_no_mismatch rest e hall
      cases hr : (mergeFold e rest).2 with
      | none =>
        cases hrec : mergeGroups items ks with
        | ok tl => simp [mergeGroups, hg, hr, hrec]
        | error err =>
          have herr : err ≠ .mergeMismatch := by
            intro hcon
            apply ih
            rw [hrec, hcon]
          simp only [mergeGroups, hg, hr, hrec]
          intro hcon
          injection hcon with hh
          exact herr hh
      | some err =>
        have herr : err ≠ .mergeMismatch := by
          intro hcon
          apply hf.1
          rw [hr, hcon]
        simp only [mergeGroups, hg, hr]
        intro hcon
        injection hcon with hh
        exact herr hh

/-- C10: record equality for logins is hash-tuple equality and
merge_duplicate_items groups by (class, hash): any two entries of one
deduplication group share the grouping key, so the defensive ValueError
branch of _merge_entry (operands comparing unequal) can never be reached
by deduplication. -/
theorem c10_mismatch_branch_unreachable (items : List Entry) (k : EntryKey)
    (a b : Entry) (ha : a ∈ groupOf items k) (hb : b ∈ groupOf items k) :
    entryKey a = entryKey b ∧
    merge_duplicate_items items ≠ .error .mergeMismatch := by
  refine ⟨?_, mergeGroups_no_mismatch items _⟩
  rw [mem_groupOf items k a ha, mem_groupOf items k b hb]

def c10Env1 : Env := { freshId := "c10a", now := 1 }

def c10Env2 : Env := { freshId := "c10b", now := 2 }

def c10Content : Content := { username? := some "u", password? := some "p" }

def c10Meta : Metadata := { name? := some "S" }

def c10Item : Item :=
  { data? := some { type? := some "login", content? := some c10Content, metadata? := some c10Meta } }

def c10A : LoginEntry := ((loginInit c10Env1 c10Item).toOption).getD dummyLogin

def c10B : LoginEntry := ((loginInit c10Env2 c10Item).toOption).getD dummyLogin

def c10Items : List Entry := [.login c10A, .login c10B]

/-- C10 witness: a concrete two-entry duplicate group. -/
theorem c10_mismatch_branch_unreachable_witness :
    entryKey (.login c10A) = entryKey (.login c10B) ∧
    merge_duplicate_items c10Items ≠ .error .mergeMismatch :=
  c10_mismatch_branch_unreachable c10Items (loginHashKey c10A)
    (.login c10A) (.login c10B) (by decide) (by decide)

/-! ## C9 -/

/-- C9: an external item whose data.type is neither login nor creditCard
is silently dropped at load time: _create_entry yields None for it and the
Vault.__init__ loop produces the same entry list with or without it. -/
theorem c9_other_types_silently_dropped (env : Env) (item : Item)
    (xs ys : List (Env × Item)) (ty : String)
    (hty : (item.data?.getD {}).type? = some ty)
    (h1 : ty ≠ "login") (h2 : ty ≠ "creditCard") :
    create_entry env item = .ok none ∧
    vault_items (xs ++ (env, item) :: ys) = vault_items (xs ++ ys) := by
  have hce : create_entry env item = .ok none := by
    unfold create_entry
    rw [hty]
    show (if ty = "login" then Except.map (fun e => some (Entry.login e)) (loginInit env item)
      else if ty = "creditCard" then Except.map (fun e => some (Entry.creditCard e)) (cardInit env item)
      else Except.ok none) = Except.ok none
    rw [if_neg h1, if_neg h2]
  refine ⟨hce, ?_⟩
  induction xs with
  | nil =>
    simp only [List.nil_append]
    cases hv : vault_items ys with
    | ok tl =>
      simp only [vault_items, hce, hv]
      rfl
    | error e =>
      simp only [vault_items, hce, hv]
      rfl
  | cons x xs ih =>
    obtain ⟨ex, ix⟩ := x
    simp only [List.cons_append, vault_items, List.append_eq, ih]

def c9Env : Env := { freshId := "c9", now := 3 }

def c9NoteItem : Item :=
  { name? := some "my note", data? := some { type? := some "note" } }

/-- C9 witness: a note item alone produces an empty entry list. -/
theorem c9_other_types_silently_dropped_witness :
    create_entry c9Env c9NoteItem = .ok none ∧
    vault_items ([] ++ (c9Env, c9NoteItem) :: []) = vault_items ([] ++ []) :=
  c9_other_types_silently_dropped c9Env c9NoteItem [] [] "note" rfl
    (by decide) (by decide)

/-! ## C5 -/

def c5Env : Env := { freshId := "c5", now := 5 }

def c5ItemCrash : Item :=
  { data? := some { type? := some "login" }, create_time? := some 1700000000 }

def c5ItemNoType : Item := { name? := some "x", data? := some {} }

/-- C5 (code bug): construction raises TypeError when a truthy
create_time key is present (datetime.datetime on a bare timestamp), even
though the variant field is present; and a missing data.type raises a
plain KeyError (no MalformedRecordError exists in the code). -/
theorem c5_construction_failures :
    loginInit c5Env c5ItemCrash = .error (.typeError "datetime.datetime") ∧
    loginInit c5Env c5ItemNoType = .error (.keyError "type") := ⟨rfl, rfl⟩

/-! ## C2 -/

def c2Vault : Vault := { id := "v1", name? := some "Personal", items := [] }

def c2Handler : HandlerState :=
  { encrypted := false, user_id := "user1", version := 1, vaults := [c2Vault] }

def c2EmptyHandler : HandlerState :=
  { encrypted := false, user_id := "user1", version := 1, vaults := [] }

/-- C2 (code bug): with at least one vault, save_data raises (the vault
loop subscripts the empty vaults mapping, KeyError wrapped in ValueError)
and writes nothing; with no vaults it emits only the envelope and an
empty vault collection — in no case is a per-Container document with the
records' serialized output produced. -/
theorem c2_save_never_writes_vault_documents :
    save_data c2Handler = .error (.valueError "Error saving data") ∧
    save_data c2EmptyHandler =
      .ok { encrypted := false, userId := "user1", version := 1, vaultsOut := [] } :=
  ⟨rfl, rfl⟩

/-! ## C1 -/

def c1Env1 : Env := { freshId := "c1a", now := 1 }

def c1Env2 : Env := { freshId := "c1b", now := 2 }

def c1Content1 : Content :=
  { username? := some "bob", password? := some "pw1",
    urls? := some ["https://Example.com/login"] }

def c1Content2 : Content :=
  { username? := some "bob", password? := some "pw1",
    urls? := some ["http://example.com"] }

def c1Meta : Metadata := { name? := some "Example" }

def c1Item1 : Item :=
  { data? := some { type? := some "login", content? := some c1Content1, metadata? := some c1Meta } }

def c1Item2 : Item :=
  { data? := some { type? := some "login", content? := some c1Content2, metadata? := some c1Meta } }

def c1A : LoginEntry := ((loginInit c1Env1 c1Item1).toOption).getD dummyLogin

def c1B : LoginEntry := ((loginInit c1Env2 c1Item2).toOption).getD dummyLogin

/-- C1 (code bug): on the spec scenario, normalization keeps the host
case (https://Example.com/, not https://example.com/), and deduplication
then raises AttributeError while reading the never-assigned pinned
attribute, so no merged record with the URL union and modifiedAt T2 is
produced. -/
theorem c1_scenario_normalization_then_dedup_crashes :
    loginInit c1Env1 c1Item1 = .ok c1A ∧
    loginInit c1Env2 c1Item2 = .ok c1B ∧
    c1A.modify_time = 1 ∧
    c1B.modify_time = 2 ∧
    (loginClean c1A).urls = ["https://Example.com/"] ∧
    (loginClean c1B).urls = ["http://example.com/"] ∧
    merge_duplicate_items (clean_items [.login c1A, .login c1B])
      = .error (.attributeError "pinned") :=
  ⟨rfl, rfl, rfl, rfl, rfl, rfl, rfl⟩

/-! ## C6 -/

def c6Env1 : Env := { freshId := "c6a", now := 1 }

def c6Env2 : Env := { freshId := "c6b", now := 2 }

def c6Env3 : Env := { freshId := "c6c", now := 3 }

def c6ContentL : Content := { username? := some "alice", password? := some "p" }

def c6MetaL : Metadata := { name? := some "Site" }

def c6ItemL : Item :=
  { data? := some { type? := some "login", content? := some c6ContentL, metadata? := some c6MetaL } }

def c6ContentC : Content := { cardholderName? := some "A", number? := some "1" }

def c6ItemC : Item :=
  { data? := some { type? := some "creditCard", content? := some c6ContentC } }

def c6A : LoginEntry := ((loginInit c6Env1 c6ItemL).toOption).getD dummyLogin

def c6B : LoginEntry := ((loginInit c6Env2 c6ItemL).toOption).getD dummyLogin

def c6C : CreditCardEntry := ((cardInit c6Env3 c6ItemC).toOption).getD dummyCard

def c6Items : List Entry := [.login c6A, .creditCard c6C, .login c6B]

/-- C6 (code bug): the grouping itself partitions this three-entry
container into its two groups, but deduplication raises AttributeError on
the duplicate login group instead of replacing the collection with one
record per group. -/
theorem c6_dedup_crashes_on_login_duplicates :
    unique_list (c6Items.map entryKey) = [loginHashKey c6A, cardHashKey c6C] ∧
    groupOf c6Items (loginHashKey c6A) = [.login c6A, .login c6B] ∧
    groupOf c6Items (cardHashKey c6C) = [.creditCard c6C] ∧
    merge_duplicate_items c6Items = .error (.attributeError "pinned") :=
  ⟨rfl, rfl, rfl, rfl⟩

/-! ## C4 -/

def c4Env1 : Env := { freshId := "c4a", now := 1 }

def c4Env2 : Env := { freshId := "c4b", now := 2 }

def c4Pk1 : Passkey := { keyId? := some "k1", payload := "pa" }

def c4Pk2 : Passkey := { keyId? := some "k2", payload := "pb" }

def c4Content1 : Content :=
  { username? := some "bob", password? := some "pw", passkeys? := some [c4Pk1] }

def c4Content2 : Content :=
  { username? := some "bob", password? := some "pw", passkeys? := some [c4Pk2] }

def c4Meta : Metadata := { name? := some "Example" }

def c4Item1 : Item :=
  { data? := some { type? := some "login", content? := some c4Content1, metadata? := some c4Meta } }

def c4Item2 : Item :=
  { data? := some { type? := some "login", content? := some c4Content2, metadata? := some c4Meta } }

def c4A : LoginEntry := ((loginInit c4Env1 c4Item1).toOption).getD dummyLogin

def c4B : LoginEntry := ((loginInit c4Env2 c4Item2).toOption).getD dummyLogin

/-- C4 (code bug): the merge does union the urls, but it reads passkeys
from the data root instead of data.content, so both operands' passkeys
are dropped (empty result, not the keyId-union), and the merge then
raises AttributeError on pinned. -/
theorem c4_merge_loses_passkeys :
    loginInit c4Env1 c4Item1 = .ok c4A ∧
    loginInit c4Env2 c4Item2 = .ok c4B ∧
    c4A.passkeys = [c4Pk1] ∧
    c4B.passkeys = [c4Pk2] ∧
    (loginMergeState c4A c4B).1.urls = unique_list (c4A.urls ++ c4B.urls) ∧
    (loginMergeState c4A c4B).1.passkeys = [] ∧
    (loginMergeState c4A c4B).2 = some (.attributeError "pinned") :=
  ⟨rfl, rfl, rfl, rfl, rfl, rfl, rfl⟩

end VaultHandler
